import Mathlib

/-!
Verification of the FTP-Smasher scanner (Python) against its specification.

The development shallowly embeds the relevant parts of the repository:

* src/src/scanner.py
  - FTPFileInfo.from_list_output (lines 23-46): the listing parser;
  - FTPConnection (lines 48-110): connect, login, change_directory, and the
    Python context-manager protocol of the enter and exit hooks;
  - FTPScanner.scan_directory together with the helper
    FTPScanner._process_directory_contents (lines 133-181): the recursive
    traversal with its try / except / finally structure;
  - FTPScanner.scan_server (lines 183-207) and FTPScanner.scan (lines 209-232).
* src/main.py
  - init_processes (lines 74-83): host partitioning through numpy.array_split.

Network and database effects are made explicit.  A fake connection
collaborator (FakeFS, FakeHost) records which directory changes succeed,
what each listing returns (or whether it raises), and whether connect,
login and quit succeed; the session state carries the current remote path
and the rows written to the persistence collaborator.  Exceptions are
modelled by explicit branching that mirrors the Python control flow,
including the context-manager rules: the exit hook is not invoked when the
enter hook raises, and an exception raised by the exit hook replaces a
pending return value.

Model boundaries, stated once here: the persistence collaborator itself
never raises; change_directory classifies every failure as an ftplib
all_errors failure (returning False, scanner.py lines 101-110); non-ASCII
decimal digits accepted by the Python int constructor and by the strptime
digit classes are not modelled, nor are underscores in non-ASCII text.
-/

/-! ## Python str.split with maxsplit (used by from_list_output, line 26) -/

/-- The whitespace characters recognised by Python str.split (ASCII part). -/
def pyIsSpace (c : Char) : Bool :=
  c = ' ' || c = '\t' || c = '\n' || c = '\r' || c = '\x0b' || c = '\x0c'

/-- Core of Python str.split(maxsplit=m) on a character list: leading
whitespace is skipped; once m words have been produced the remainder
(with the separating whitespace removed, trailing whitespace kept) forms
the final element; a remainder that is all whitespace produces nothing. -/
def pySplitAux (maxsplit : Nat) (cs : List Char) : List (List Char) :=
  let rest := cs.dropWhile pyIsSpace
  if rest.isEmpty then []
  else
    match maxsplit with
    | 0 => [rest]
    | m + 1 =>
      rest.takeWhile (fun c => !pyIsSpace c) ::
        pySplitAux m (rest.dropWhile (fun c => !pyIsSpace c))

/-- Python line.split(maxsplit=m). -/
def pySplit (s : String) (maxsplit : Nat) : List String :=
  (pySplitAux maxsplit s.toList).map (fun cs => String.mk cs)

/-! ## Python int(...) on a whitespace-free string (scanner.py line 36) -/

/-- Numeric value of an ASCII digit character. -/
def digitVal (c : Char) : Nat := c.toNat - 48

/-- Digits of a Python int literal after the first digit: ASCII digits with
single underscores allowed between digits. -/
def pyIntDigits : List Char → Nat → Option Nat
  | [], acc => some acc
  | c :: rest, acc =>
    if c.isDigit then pyIntDigits rest (acc * 10 + digitVal c)
    else if c = '_' then
      match rest with
      | [] => none
      | d :: rest2 =>
        if d.isDigit then pyIntDigits rest2 (acc * 10 + digitVal d) else none
    else none

/-- A nonempty digit sequence (underscore-separated groups), as accepted by
the Python int constructor after sign removal. -/
def pyIntCore (cs : List Char) : Option Nat :=
  match cs with
  | [] => none
  | c :: rest => if c.isDigit then pyIntDigits rest (digitVal c) else none

/-- Python int(s) for a string without surrounding whitespace; none models a
raised ValueError. -/
def pyInt (s : String) : Option Int :=
  match s.toList with
  | '+' :: rest => (pyIntCore rest).map (fun n => (n : Int))
  | '-' :: rest => (pyIntCore rest).map (fun n => -(n : Int))
  | cs => (pyIntCore cs).map (fun n => (n : Int))

/-! ## Python datetime.strptime(s, "%b %d %Y") (scanner.py line 31)

The argument string is built as three whitespace-free fields joined by
single spaces, so the regex match performed by the Python _strptime module
decomposes exactly into: the first field is a month abbreviation
(case-insensitive), the second matches the day pattern
3[01]|[12]digit|0[1-9]|[1-9], the third is exactly four digits, and the
resulting (year, month, day) must form a valid date for the datetime
constructor (year at least 1). -/

/-- A calendar date as produced by a successful strptime call. -/
structure Date where
  year : Nat
  month : Nat
  day : Nat
deriving DecidableEq, Repr

/-- Lowercased English month abbreviations, the %b alternatives. -/
def monthAbbrevs : List String :=
  ["jan", "feb", "mar", "apr", "may", "jun",
   "jul", "aug", "sep", "oct", "nov", "dec"]

/-- ASCII lowercasing of one character (the month abbreviations are ASCII). -/
def pyToLower (c : Char) : Char :=
  if 'A' ≤ c && c ≤ 'Z' then Char.ofNat (c.toNat + 32) else c

/-- ASCII lowercasing of a string. -/
def lowerString (s : String) : String :=
  String.mk (s.toList.map pyToLower)

/-- Month number of a %b match (case-insensitive), none when no match. -/
def monthOfAbbrev (s : String) : Option Nat :=
  match monthAbbrevs.findIdx? (fun m => m = lowerString s) with
  | some i => some (i + 1)
  | none => none

/-- Full-string match of the %d day pattern 3[01]|[12]digit|0[1-9]|[1-9]. -/
def parseDay (s : String) : Option Nat :=
  match s.toList with
  | [c] => if '1' ≤ c && c ≤ '9' then some (digitVal c) else none
  | [c1, c2] =>
    if c1 = '3' && (c2 = '0' || c2 = '1') then some (30 + digitVal c2)
    else if (c1 = '1' || c1 = '2') && c2.isDigit then
      some (10 * digitVal c1 + digitVal c2)
    else if c1 = '0' && ('1' ≤ c2 && c2 ≤ '9') then some (digitVal c2)
    else none
  | _ => none

/-- Full-string match of the %Y pattern: exactly four digits. -/
def parseYear4 (s : String) : Option Nat :=
  match s.toList with
  | [c1, c2, c3, c4] =>
    if c1.isDigit && c2.isDigit && c3.isDigit && c4.isDigit then
      some (1000 * digitVal c1 + 100 * digitVal c2 + 10 * digitVal c3 +
        digitVal c4)
    else none
  | _ => none

/-- Gregorian leap-year rule used by the Python datetime module. -/
def isLeapYear (y : Nat) : Bool :=
  (y % 4 = 0 && y % 100 != 0) || y % 400 = 0

/-- Days in a month, as validated by the datetime constructor. -/
def daysInMonth (y m : Nat) : Nat :=
  if m = 2 then (if isLeapYear y then 29 else 28)
  else if m = 4 || m = 6 || m = 9 || m = 11 then 30
  else 31

/-- datetime.strptime applied to the three fields joined by single spaces
with format "%b %d %Y"; none models a raised ValueError, either from the
regex failing to match or from the datetime constructor rejecting the
combination. -/
def strptime_b_d_Y (bs ds ys : String) : Option Date :=
  match monthOfAbbrev bs, parseDay ds, parseYear4 ys with
  | some m, some d, some y =>
    if 1 ≤ y && d ≤ daysInMonth y m then some ⟨y, m, d⟩ else none
  | _, _, _ => none

/-! ## FTPFileInfo (scanner.py lines 14-46) -/

/-- FTPFileInfo: one parsed entry of an FTP LIST line.  Field defaults are
those of the Python dataclass (lines 17-21). -/
structure FTPFileInfo where
  name : String
  permissions : Option String := none
  size : Option Int := none
  modified : Option Date := none
  is_dir : Bool := false
deriving DecidableEq, Repr

/-- Python s.startswith(p), via the character lists. -/
def pyStartsWith (s p : String) : Bool :=
  p.toList.isPrefixOf s.toList

/-- FTPFileInfo.from_list_output (scanner.py lines 23-46): split the line on
whitespace into at most nine fields; with fewer than nine fields the whole
line becomes the name of a fallback entry; otherwise parse size and
modification date best-effort and read the directory flag from the
permissions field. -/
def from_list_output (line : String) : FTPFileInfo :=
  let parts := pySplit line 8
  if parts.length < 9 then
    { name := line }
  else
    { name := parts.get! 8
      permissions := some (parts.get! 0)
      size := pyInt (parts.get! 4)
      modified := strptime_b_d_Y (parts.get! 5) (parts.get! 6) (parts.get! 7)
      is_dir := pyStartsWith (parts.get! 0) "d" }

/-! ## Host partitioner (main.py, init_processes, lines 74-83)

init_processes splits the (already shuffled) host list with
numpy.array_split(ip_list, cpu_cores) and rebuilds one Python list per
worker.  For a list of length L split into n sections, numpy produces
L mod n sections of size L / n + 1 followed by n - L mod n sections of
size L / n, all contiguous. -/

/-- The section sizes chosen by numpy.array_split. -/
def splitSizes (len n : Nat) : List Nat :=
  List.replicate (len % n) (len / n + 1) ++
    List.replicate (n - len % n) (len / n)

/-- Cut a list into contiguous chunks of the given sizes. -/
def splitBySizes {α : Type} : List Nat → List α → List (List α)
  | [], _ => []
  | s :: ss, l => l.take s :: splitBySizes ss (l.drop s)

/-- numpy.array_split(l, n) as used by init_processes (main.py line 76). -/
def array_split {α : Type} (l : List α) (n : Nat) : List (List α) :=
  splitBySizes (splitSizes l.length n) l

/-! ## Fake connection collaborator and traversal state

The spec asks that the traversal be verifiable against a fake connection
collaborator recording directory-change calls.  Remote paths are lists of
segments measured from the root: the path "/" is [], the path "/a/b" is
["a", "b"], and a path carrying the special POSIX "//" root that pathlib
preserves (exactly two leading slashes) is encoded with the sentinel first
segment "//" (no real segment can contain a slash, so the encoding is
injective and the string form of each path is recovered uniquely).  The
path built by str(PurePosixPath(path) / item.name) at scanner.py line 150
is embedded by posixJoin below, following the pathlib join rules.
FTPConnection.change_directory (lines 101-110) returns a success flag and
never raises (it converts every ftplib all_errors failure into False); a
successful absolute change sets the current path, and the relative change
to ".." in the finally block (line 181) drops the last segment, staying at
the root when already there. -/

/-- Split a character list at every slash; the resulting groups contain no
slash and there is one more group than there are slashes. -/
def splitOnSlash : List Char → List (List Char)
  | [] => [[]]
  | c :: rest =>
    if c = '/' then [] :: splitOnSlash rest
    else
      match splitOnSlash rest with
      | [] => [[c]]
      | g :: gs => (c :: g) :: gs

/-- The path segments pathlib keeps from one textual path: the
slash-separated groups with empty groups (from repeated or surrounding
slashes) and "." groups dropped; ".." is kept, pathlib does not resolve
it. -/
def posixSegs (name : String) : List String :=
  ((splitOnSlash name.toList).map (fun cs => String.mk cs)).filter
    (fun s => s != "" && s != ".")

/-- str(PurePosixPath(path) / name) on the segment encoding, following the
pathlib join rules (checked against the Python implementation): a name
starting with a slash replaces the whole base path, and its root is the
special "//" root exactly when the name has exactly two leading slashes;
any other name appends its segments to the base; a name that contributes
no segment ("", ".", "//" alone and the like) leaves the corresponding
base unchanged. -/
def posixJoin (path : List String) (name : String) : List String :=
  let cs := name.toList
  if cs.take 1 = ['/'] then
    if cs.take 2 = ['/', '/'] ∧ cs.take 3 ≠ ['/', '/', '/'] then
      "//" :: posixSegs name
    else posixSegs name
  else path ++ posixSegs name

/-- The fake remote server: which absolute paths a change_directory call
can enter, and the raw LIST lines of each path; none models
retrlines raising inside list_directory (scanner.py line 98). -/
structure FakeFS where
  accessible : List String → Bool
  listing : List String → Option (List String)

/-- Session traversal state: the current remote path plus the rows written
through the persistence collaborator, in write order.  Directory rows are
keyed by path (Database.add_directory upserts on (server_id, path)), file
rows carry the path of the directory row they were attached to. -/
structure ScanState where
  cwd : List String
  dirs : List (List String)
  files : List (List String × FTPFileInfo)
deriving DecidableEq, Repr

/-- The connection.change_directory("..") call of the finally block
(scanner.py line 181): drop the deepest segment of the current path. -/
def popCwd (s : ScanState) : ScanState :=
  ⟨s.cwd.dropLast, s.dirs, s.files⟩

/-- One iteration of the entry loop of _process_directory_contents
(scanner.py lines 148-159), parameterised by the recursive scan used for
subdirectory entries: a directory entry other than the self and parent
pseudo-entries is recursed into at str(PurePosixPath(path) / name), here
posixJoin path name (a name containing slashes descends several levels or
jumps absolutely); a non-directory entry becomes a file row under the
current directory; a directory entry named "." or ".." is skipped. -/
def scan_step (recur : List String → ScanState → ScanState)
    (path : List String) (acc : ScanState) (e : FTPFileInfo) : ScanState :=
  if e.is_dir && e.name != "." && e.name != ".." then
    recur (posixJoin path e.name) acc
  else if !e.is_dir then
    ⟨acc.cwd, acc.dirs, acc.files ++ [(path, e)]⟩
  else acc

/-- FTPScanner.scan_directory (scanner.py lines 161-181) together with
_process_directory_contents (lines 133-159), with explicit exception flow.
Control mirrors the Python try / except / finally:
* change_directory(path) fails: the early return still runs the finally
  block, so the state only loses its deepest cwd segment;
* change_directory succeeds: cwd is now path, add_directory records the
  directory row; if the listing raises, the except clause absorbs the
  error and the finally block pops; otherwise every parsed entry is
  processed in order and the finally block pops afterwards.
Recursion depth is fuel-bounded; exhausted fuel leaves the state unchanged
(the Python original recurses without any depth bound, which only matters
on listings that name an unbounded chain of subdirectories). -/
def scan_directory (fs : FakeFS) : Nat → List String → ScanState → ScanState
  | 0, _, s => s
  | fuel + 1, path, s =>
    if fs.accessible path then
      popCwd (match fs.listing path with
        | none => ⟨path, s.dirs ++ [path], s.files⟩
        | some lines =>
          (lines.map from_list_output).foldl
            (scan_step (fun p st => scan_directory fs fuel p st) path)
            ⟨path, s.dirs ++ [path], s.files⟩)
    else popCwd s


/-! ## Session state machine per host (scanner.py lines 48-75 and 183-207)

FTPConnection.connect (lines 63-68) opens the socket inside the FTP
constructor and then logs in; both happen inside the enter hook of the
context manager (line 56), so per the Python context-manager protocol a
failure there propagates without the exit hook ever running.  The exit
hook (line 60) calls disconnect, whose ftp.quit() performs a network QUIT
exchange that can itself raise an ftplib all_errors failure; in that case
ftplib does not close the socket, the pending return of scan_server is
discarded, and the except all_errors clause of scan_server runs.
scan_server (lines 183-207) writes one server row before traversal
("success") and one in each except clause ("failed" for all_errors,
"error" otherwise); the persistence collaborator upserts on host, so a
later write replaces the status of an earlier one. -/

/-- Behaviour of one fake host as seen through FTPConnection:
* connects: the TCP connection inside the FTP constructor succeeds;
* loginOk: the greeting and the anonymous login succeed (meaningful only
  when connects is true);
* loginUnexpected: when the post-connect phase fails, the raised exception
  is outside ftplib all_errors (for example a UnicodeDecodeError from the
  reply decoder), so it reaches the generic except clause;
* quitOk: the QUIT exchange of ftp.quit() succeeds;
* fs: the directory tree behaviour during traversal. -/
structure FakeHost where
  connects : Bool
  loginOk : Bool
  loginUnexpected : Bool
  quitOk : Bool
  fs : FakeFS

/-- Observable outcome of scan_server on one host: the returned value,
the add_server statuses in write order, whether the TCP connection was
ever established, whether the session closed it, and the final traversal
state. -/
structure HostOutcome where
  found : Option String
  statuses : List String
  opened : Bool
  closed : Bool
  scanned : ScanState
deriving DecidableEq, Repr

/-- The traversal state at login time: current path "/" and no rows. -/
def initScanState : ScanState := ⟨[], [], []⟩

/-- FTPScanner.scan_server (scanner.py lines 183-207) on one fake host.
Branches, in source order:
* the FTP constructor fails to connect: the enter hook raises an
  all_errors failure before any socket exists, the except all_errors
  clause writes "failed", scan_server returns None;
* the connection opens but greeting or login raises: the enter hook
  propagates the error, the exit hook is never invoked (context-manager
  protocol), so the socket stays open; the except clause chosen by the
  error class writes "failed" or "error", scan_server returns None;
* login succeeds: add_server(ip, "success") runs, then the traversal from
  "/" (which absorbs its own errors); on leaving the with block the exit
  hook calls ftp.quit(): if that raises, the socket stays open, the
  pending return ip is discarded, and the except all_errors clause writes
  "failed" over "success"; otherwise the connection closes and scan_server
  returns ip. -/
def scan_server (h : FakeHost) (ip : String) (fuel : Nat) : HostOutcome :=
  if !h.connects then
    ⟨none, ["failed"], false, false, initScanState⟩
  else if !h.loginOk then
    ⟨none, [if h.loginUnexpected then "error" else "failed"],
      true, false, initScanState⟩
  else
    let s := scan_directory h.fs fuel [] initScanState
    if h.quitOk then ⟨some ip, ["success"], true, true, s⟩
    else ⟨none, ["success", "failed"], true, false, s⟩

/-- FTPScanner.scan (scanner.py lines 221-223): map scan_server over the
host list, then keep the non-None results, in order. -/
def scan (hosts : List (String × FakeHost)) (fuel : Nat) : List String :=
  ((hosts.map (fun p => (scan_server p.2 p.1 fuel).found)).filterMap id)

/-! ## Concrete fake hosts used in witnesses and counterexamples -/

/-- A remote tree where every directory change fails. -/
def fsDenyAll : FakeFS := ⟨fun _ => false, fun _ => some []⟩

/-- A remote tree where every directory change succeeds and every listing
is empty. -/
def fsAllowAll : FakeFS := ⟨fun _ => true, fun _ => some []⟩

/-- Only the root is accessible; its listing names one subdirectory. -/
def fsRootOnly : FakeFS :=
  ⟨fun p => p.isEmpty,
   fun p => if p.isEmpty then
       some ["drwxr-xr-x 2 user group 4096 Jan 1 2020 sub"]
     else some []⟩

/-- Every directory change succeeds; the listing of /x names one
subdirectory whose name field contains a slash, so the code descends two
levels through the PurePosixPath join while the finally block pops one. -/
def fsSlashName : FakeFS :=
  ⟨fun _ => true,
   fun p => if p = ["x"] then
       some ["drwxr-xr-x 2 user group 4096 Jan 1 2020 a/b"]
     else some []⟩

/-- All directory entries the fake server ever lists carry plain
single-segment names: nonempty and without any slash.  For such a name
(and the self and parent names are filtered out by the entry loop) the
PurePosixPath join descends exactly one level. -/
def plainDirNames (fs : FakeFS) : Prop :=
  ∀ (p : List String) (lines : List String), fs.listing p = some lines →
    ∀ e ∈ lines.map from_list_output, e.is_dir = true →
      ('/' : Char) ∉ e.name.toList ∧ e.name ≠ ""

/-- Connects, logs in, traverses an empty root, quits cleanly. -/
def okHost : FakeHost := ⟨true, true, false, true, fsAllowAll⟩

/-- Connects and logs in, but the QUIT exchange at disconnect raises. -/
def hostQuitFail : FakeHost := ⟨true, true, false, false, fsAllowAll⟩

/-- The TCP connection is refused (or times out). -/
def hostRefused : FakeHost := ⟨false, false, false, true, fsAllowAll⟩

/-- Connects, but the anonymous login is rejected with an ftplib error. -/
def hostLoginDenied : FakeHost := ⟨true, false, false, true, fsAllowAll⟩

/-- Connects, but the post-connect phase raises outside all_errors. -/
def hostUnexpected : FakeHost := ⟨true, false, true, true, fsAllowAll⟩

/-- Logs in, then one directory change fails mid-traversal, and the QUIT
exchange at disconnect raises. -/
def hostC9 : FakeHost := ⟨true, true, false, false, fsRootOnly⟩

/-- The failure classification of ftplib all_errors during connect or
login: either the constructor fails to connect, or the login phase raises
an error inside the all_errors family. -/
def login_failure (h : FakeHost) : Prop :=
  h.connects = false ∨ (h.loginOk = false ∧ h.loginUnexpected = false)

/-! ## Lemmas about the split and the partitioner -/

/-- str.split(maxsplit=m) yields at most m + 1 fields. -/
theorem pySplitAux_length_le (m : Nat) :
    ∀ cs : List Char, (pySplitAux m cs).length ≤ m + 1 := by
  induction m with
  | zero =>
    intro cs
    rw [show pySplitAux 0 cs =
      (if (cs.dropWhile pyIsSpace).isEmpty then []
       else [cs.dropWhile pyIsSpace]) from rfl]
    split <;> simp
  | succ n ih =>
    intro cs
    rw [show pySplitAux (n + 1) cs =
      (if (cs.dropWhile pyIsSpace).isEmpty then []
       else (cs.dropWhile pyIsSpace).takeWhile (fun c => !pyIsSpace c) ::
         pySplitAux n
           ((cs.dropWhile pyIsSpace).dropWhile (fun c => !pyIsSpace c)))
      from rfl]
    split
    · simp
    · simp only [List.length_cons]
      have := ih ((cs.dropWhile pyIsSpace).dropWhile (fun c => !pyIsSpace c))
      omega

theorem splitBySizes_length {α : Type} :
    ∀ (ss : List Nat) (l : List α), (splitBySizes ss l).length = ss.length := by
  intro ss
  induction ss with
  | nil => intro l; rfl
  | cons s ss ih => intro l; simp [splitBySizes, ih]

theorem splitBySizes_flatten {α : Type} :
    ∀ (ss : List Nat) (l : List α),
      (splitBySizes ss l).flatten = l.take ss.sum := by
  intro ss
  induction ss with
  | nil => intro l; simp [splitBySizes]
  | cons s ss ih =>
    intro l
    simp only [splitBySizes, List.flatten_cons, List.sum_cons, ih,
      List.take_add]

theorem splitSizes_length (len n : Nat) (hn : 0 < n) :
    (splitSizes len n).length = n := by
  have h := Nat.mod_lt len hn
  simp only [splitSizes, List.length_append, List.length_replicate]
  omega

theorem splitSizes_sum (len n : Nat) (hn : 0 < n) :
    (splitSizes len n).sum = len := by
  have hr : len % n ≤ n := le_of_lt (Nat.mod_lt _ hn)
  have h1 : len % n * (len / n) ≤ n * (len / n) :=
    Nat.mul_le_mul_right _ hr
  have h2 : n * (len / n) + len % n = len := Nat.div_add_mod len n
  calc (splitSizes len n).sum
      = len % n * (len / n + 1) + (n - len % n) * (len / n) := by
        simp [splitSizes, List.sum_replicate, smul_eq_mul]
    _ = len % n * (len / n) + len % n +
        (n * (len / n) - len % n * (len / n)) := by
        rw [Nat.mul_succ, Nat.sub_mul]
    _ = len := by omega

theorem mem_splitSizes (len n s : Nat) (hs : s ∈ splitSizes len n) :
    s = len / n ∨ s = len / n + 1 := by
  rcases List.mem_append.mp hs with h | h
  · exact Or.inr (List.eq_of_mem_replicate h)
  · exact Or.inl (List.eq_of_mem_replicate h)

theorem splitBySizes_map_length {α : Type} :
    ∀ (ss : List Nat) (l : List α), ss.sum ≤ l.length →
      (splitBySizes ss l).map List.length = ss := by
  intro ss
  induction ss with
  | nil => intro l _; rfl
  | cons s ss ih =>
    intro l h
    simp only [List.sum_cons] at h
    have hs : s ≤ l.length := by omega
    simp only [splitBySizes, List.map_cons, List.length_take,
      Nat.min_eq_left hs]
    have : ss.sum ≤ (l.drop s).length := by
      simp only [List.length_drop]; omega
    rw [ih _ this]

/-- C5: for every non-empty host list and positive worker count n, the
partitioner returns n partitions, their concatenation is exactly the input
list (each element once, order preserved), and any two partition sizes
differ by at most one. -/
theorem C5_array_split (l : List String) (n : Nat) (hl : l ≠ [])
    (hn : 0 < n) :
    (array_split l n).length = n ∧
    (array_split l n).flatten = l ∧
    ∀ p ∈ array_split l n, ∀ q ∈ array_split l n,
      p.length ≤ q.length + 1 := by
  have hsum : (splitSizes l.length n).sum = l.length := splitSizes_sum _ _ hn
  refine ⟨?_, ?_, ?_⟩
  · rw [array_split, splitBySizes_length, splitSizes_length _ _ hn]
  · rw [array_split, splitBySizes_flatten, hsum, List.take_length]
  · intro p hp q hq
    have hml := splitBySizes_map_length (splitSizes l.length n) l hsum.le
    have hpl : p.length ∈ splitSizes l.length n := by
      rw [← hml]; exact List.mem_map_of_mem _ hp
    have hql : q.length ∈ splitSizes l.length n := by
      rw [← hml]; exact List.mem_map_of_mem _ hq
    rcases mem_splitSizes _ _ _ hpl with h1 | h1 <;>
      rcases mem_splitSizes _ _ _ hql with h2 | h2 <;> omega

/-- C5 witness: three hosts over two workers. -/
theorem C5_array_split_witness :
    (array_split ["a", "b", "c"] 2).length = 2 ∧
    (array_split ["a", "b", "c"] 2).flatten = ["a", "b", "c"] ∧
    ∀ p ∈ array_split ["a", "b", "c"] 2, ∀ q ∈ array_split ["a", "b", "c"] 2,
      p.length ≤ q.length + 1 :=
  C5_array_split ["a", "b", "c"] 2 (by decide) (by decide)

/-- C3: the listing parser splits into at most nine fields; with exactly
nine fields the entry is built from the fields as the code does (name is
the ninth field verbatim, the directory flag reads the permission field,
size and modification date parse best-effort to none on failure); and the
concrete example line from the spec parses as stated there. -/
theorem C3_listing_contract :
    (∀ line : String, (pySplit line 8).length ≤ 9) ∧
    (∀ line p0 p1 p2 p3 p4 p5 p6 p7 p8 : String,
      pySplit line 8 = [p0, p1, p2, p3, p4, p5, p6, p7, p8] →
      from_list_output line =
        { name := p8, permissions := some p0, size := pyInt p4,
          modified := strptime_b_d_Y p5 p6 p7,
          is_dir := pyStartsWith p0 "d" }) ∧
    from_list_output "drwxr-xr-x 2 user group 4096 Jan 1 2020 mydir" =
      { name := "mydir", permissions := some "drwxr-xr-x", size := some 4096,
        modified := some ⟨2020, 1, 1⟩, is_dir := true } := by
  refine ⟨?_, ?_, by decide⟩
  · intro line
    have := pySplitAux_length_le 8 line.toList
    simpa [pySplit] using this
  · intro line p0 p1 p2 p3 p4 p5 p6 p7 p8 h
    unfold from_list_output
    rw [h]
    simp [List.get!]

/-- C3 witness: the nine-field clause applied to the second spec example. -/
theorem C3_listing_contract_witness :
    from_list_output "-rw-r--r-- 1 user group 123 Feb 2 2021 report.txt" =
      { name := "report.txt", permissions := some "-rw-r--r--",
        size := pyInt "123", modified := strptime_b_d_Y "Feb" "2" "2021",
        is_dir := pyStartsWith "-rw-r--r--" "d" } :=
  C3_listing_contract.2.1 "-rw-r--r-- 1 user group 123 Feb 2 2021 report.txt"
    "-rw-r--r--" "1" "user" "group" "123" "Feb" "2" "2021" "report.txt"
    (by decide)

/-- C4: a line with fewer than nine whitespace-delimited fields parses to
the fallback entry: the raw line as name, null permissions, size and
modification date, and a false directory flag. -/
theorem C4_fallback (line : String) (h : (pySplit line 8).length < 9) :
    from_list_output line =
      { name := line, permissions := none, size := none, modified := none,
        is_dir := false } := by
  unfold from_list_output
  simp [h]

/-- C4 witness: a two-field line takes the fallback branch. -/
theorem C4_fallback_witness :
    (pySplit "hello world" 8).length < 9 ∧
    from_list_output "hello world" =
      { name := "hello world", permissions := none, size := none,
        modified := none, is_dir := false } :=
  ⟨by decide, C4_fallback "hello world" (by decide)⟩

/-! ## Lemmas about the traversal -/

/-- Unfolding of scan_directory at zero fuel. -/
theorem scan_directory_zero (fs : FakeFS) (path : List String)
    (s : ScanState) : scan_directory fs 0 path s = s := rfl

/-- Unfolding of scan_directory at positive fuel. -/
theorem scan_directory_succ (fs : FakeFS) (fuel : Nat) (path : List String)
    (s : ScanState) :
    scan_directory fs (fuel + 1) path s =
      if fs.accessible path then
        popCwd (match fs.listing path with
          | none => ⟨path, s.dirs ++ [path], s.files⟩
          | some lines =>
            (lines.map from_list_output).foldl
              (scan_step (fun p st => scan_directory fs fuel p st) path)
              ⟨path, s.dirs ++ [path], s.files⟩)
      else popCwd s := rfl

/-- When the change into the target directory fails, the call is the early
return through the finally block: the state only loses its deepest cwd
segment. -/
theorem scan_directory_succ_fail (fs : FakeFS) (fuel : Nat)
    (path : List String) (s : ScanState) (ha : fs.accessible path = false) :
    scan_directory fs (fuel + 1) path s = popCwd s := by
  rw [scan_directory_succ, if_neg (by simp [ha])]

/-- When the change succeeds but the listing raises, the directory row is
already written and the finally block pops from the entered directory. -/
theorem scan_directory_succ_raise (fs : FakeFS) (fuel : Nat)
    (path : List String) (s : ScanState) (ha : fs.accessible path = true)
    (hl : fs.listing path = none) :
    scan_directory fs (fuel + 1) path s =
      ⟨path.dropLast, s.dirs ++ [path], s.files⟩ := by
  rw [scan_directory_succ, if_pos ha, hl]
  rfl

/-- When the change succeeds and the listing returns lines, the entries are
folded over and the finally block pops afterwards. -/
theorem scan_directory_succ_list (fs : FakeFS) (fuel : Nat)
    (path : List String) (s : ScanState) (lines : List String)
    (ha : fs.accessible path = true) (hl : fs.listing path = some lines) :
    scan_directory fs (fuel + 1) path s =
      popCwd ((lines.map from_list_output).foldl
        (scan_step (fun p st => scan_directory fs fuel p st) path)
        ⟨path, s.dirs ++ [path], s.files⟩) := by
  rw [scan_directory_succ, if_pos ha, hl]

theorem dropLast_append_single {α : Type} (l : List α) (a : α) :
    (l ++ [a]).dropLast = l := by
  simp

/-- A character list without a slash is one single group. -/
theorem splitOnSlash_no_slash (cs : List Char) (h : ('/' : Char) ∉ cs) :
    splitOnSlash cs = [cs] := by
  induction cs with
  | nil => rfl
  | cons c rest ih =>
    have hc : ¬(c = '/') := fun he =>
      h (he ▸ List.mem_cons_self c rest)
    have hrest : ('/' : Char) ∉ rest := fun hm =>
      h (List.mem_cons_of_mem c hm)
    unfold splitOnSlash
    rw [if_neg hc, ih hrest]

/-- A nonempty slash-free name other than "." joins as exactly one new
segment: str(PurePosixPath(path) / name) is path with name appended. -/
theorem posixJoin_plain (path : List String) (name : String)
    (hs : ('/' : Char) ∉ name.toList) (hne : name ≠ "")
    (hdot : name ≠ ".") :
    posixJoin path name = path ++ [name] := by
  have hnotabs : ¬(name.toList.take 1 = ['/']) := by
    intro habs
    cases hnl : name.toList with
    | nil => rw [hnl] at habs; cases habs
    | cons a t =>
      rw [hnl] at habs
      simp only [List.take_succ_cons, List.take_zero] at habs
      have ha : a = '/' := List.cons_eq_cons.mp habs |>.1
      exact hs (hnl ▸ (ha ▸ List.mem_cons_self a t))
  have hsegs : posixSegs name = [name] := by
    unfold posixSegs
    rw [splitOnSlash_no_slash name.toList hs]
    show [name].filter (fun s => s != "" && s != ".") = [name]
    simp [List.filter_cons, hne, hdot]
  rw [posixJoin, if_neg hnotabs, hsegs]

/-- The entry loop keeps the current path fixed as long as every directory
entry carries a plain single-segment name and each recursive subdirectory
call restores the path. -/
theorem foldl_scan_step_cwd (r : List String → ScanState → ScanState)
    (path : List String)
    (hr : ∀ (name : String) (acc : ScanState), acc.cwd = path →
      ('/' : Char) ∉ name.toList → name ≠ "" → name ≠ "." → name ≠ ".." →
      (r (posixJoin path name) acc).cwd = path) :
    ∀ (es : List FTPFileInfo) (acc : ScanState),
      (∀ e ∈ es, e.is_dir = true →
        ('/' : Char) ∉ e.name.toList ∧ e.name ≠ "") →
      acc.cwd = path →
      (es.foldl (scan_step r path) acc).cwd = path := by
  intro es
  induction es with
  | nil => intro acc _ h; simpa using h
  | cons e es ih =>
    intro acc hes h
    rw [List.foldl_cons]
    apply ih _ (fun e2 he2 => hes e2 (List.mem_cons_of_mem e he2))
    unfold scan_step
    by_cases hcond : (e.is_dir && e.name != "." && e.name != "..") = true
    · rw [if_pos hcond]
      simp only [Bool.and_eq_true, bne_iff_ne] at hcond
      obtain ⟨⟨hdir, hdot⟩, hddot⟩ := hcond
      obtain ⟨hslash, hne⟩ := hes e (List.mem_cons_self e es) hdir
      exact hr e.name acc h hslash hne hdot hddot
    · rw [if_neg hcond]
      by_cases hfile : (!e.is_dir) = true
      · rw [if_pos hfile]; exact h
      · rw [if_neg hfile]; exact h

/-- Stack balance of the traversal when every directory change succeeds
(listings may still raise) and every listed directory name is a plain
single segment: a call entered under the calling convention of
scan_directory (the current path is the parent of the target path) leaves
the current path where it found it. -/
theorem scan_directory_cwd_balanced (fs : FakeFS)
    (hacc : ∀ p, fs.accessible p = true) (hnames : plainDirNames fs) :
    ∀ (fuel : Nat) (path : List String) (s : ScanState),
      s.cwd = path.dropLast →
      (scan_directory fs fuel path s).cwd = path.dropLast := by
  intro fuel
  induction fuel with
  | zero => intro path s h; rw [scan_directory_zero]; exact h
  | succ n ih =>
    intro path s h
    cases hls : fs.listing path with
    | none => rw [scan_directory_succ_raise fs n path s (hacc path) hls]
    | some lines =>
      rw [scan_directory_succ_list fs n path s lines (hacc path) hls]
      have key := foldl_scan_step_cwd (fun p st => scan_directory fs n p st)
        path
        (fun name acc hacc2 hslash hne hdot _ => by
          rw [posixJoin_plain path name hslash hne hdot]
          have h2 : acc.cwd = (path ++ [name]).dropLast := by
            rw [dropLast_append_single]; exact hacc2
          have h3 := ih (path ++ [name]) acc h2
          rw [dropLast_append_single] at h3
          exact h3)
        (lines.map from_list_output) ⟨path, s.dirs ++ [path], s.files⟩
        (fun e he hdir => hnames path lines hls e he hdir) rfl
      show ((lines.map from_list_output).foldl
        (scan_step (fun p st => scan_directory fs n p st) path)
        ⟨path, s.dirs ++ [path], s.files⟩).cwd.dropLast = path.dropLast
      rw [key]

/-! ## Lemmas about scan_server and scan -/

/-- scan builds the found-list by one filterMap pass over the host list. -/
theorem scan_eq_filterMap (hosts : List (String × FakeHost)) (fuel : Nat) :
    scan hosts fuel =
      hosts.filterMap (fun p => (scan_server p.2 p.1 fuel).found) := by
  simp [scan, List.filterMap_map, Function.comp_def]

/-- scan_server returns either None or the ip it was given. -/
theorem scan_server_found (h : FakeHost) (ip : String) (fuel : Nat) :
    (scan_server h ip fuel).found = none ∨
    (scan_server h ip fuel).found = some ip := by
  cases hc : h.connects <;> cases hl2 : h.loginOk <;> cases hq : h.quitOk <;>
    simp [scan_server, hc, hl2, hq]

/-- Results over concatenated host lists concatenate. -/
theorem scan_append (l1 l2 : List (String × FakeHost)) (fuel : Nat) :
    scan (l1 ++ l2) fuel = scan l1 fuel ++ scan l2 fuel := by
  simp [scan_eq_filterMap, List.filterMap_append]

/-- Every member of the found-list is one of the listed hosts. -/
theorem mem_scan_imp (hosts : List (String × FakeHost)) (fuel : Nat)
    (x : String) (hx : x ∈ scan hosts fuel) :
    ∃ p ∈ hosts, (scan_server p.2 p.1 fuel).found = some x := by
  rw [scan_eq_filterMap] at hx
  exact List.mem_filterMap.mp hx

/-- A found entry carries the host string of the entry that produced it. -/
theorem scan_found_mem_fst (hosts : List (String × FakeHost)) (fuel : Nat)
    (x : String)
    (hx : x ∈ hosts.filterMap (fun p => (scan_server p.2 p.1 fuel).found)) :
    x ∈ hosts.map Prod.fst := by
  rcases List.mem_filterMap.mp hx with ⟨p, hp, hfp⟩
  rcases scan_server_found p.2 p.1 fuel with h0 | h0
  · rw [h0] at hfp; cases hfp
  · rw [h0] at hfp
    injection hfp with hxx
    exact List.mem_map.mpr ⟨p, hp, hxx⟩

/-- A host listed exactly once whose session succeeds end-to-end is counted
exactly once among the found results. -/
theorem count_scan_eq_one (ip : String) (h : FakeHost) (fuel : Nat)
    (hc : h.connects = true) (hl2 : h.loginOk = true)
    (hq : h.quitOk = true) :
    ∀ hosts : List (String × FakeHost), (ip, h) ∈ hosts →
      (hosts.map Prod.fst).count ip = 1 →
      (hosts.filterMap
        (fun p => (scan_server p.2 p.1 fuel).found)).count ip = 1 := by
  intro hosts
  induction hosts with
  | nil => intro hmem _; cases hmem
  | cons q rest ih =>
    intro hmem huniq
    rw [List.map_cons] at huniq
    rw [List.filterMap_cons]
    rcases List.mem_cons.mp hmem with heq | hmem2
    · have hq1 : q.1 = ip := by rw [← heq]
      have hfound : (scan_server q.2 q.1 fuel).found = some ip := by
        rw [← heq]
        simp [scan_server, hc, hl2, hq]
      rw [hfound]
      have hcnt0 : (rest.map Prod.fst).count ip = 0 := by
        rw [hq1, List.count_cons_self] at huniq
        omega
      have hnot : ip ∉ rest.filterMap
          (fun p => (scan_server p.2 p.1 fuel).found) := by
        intro hmem3
        exact (List.count_eq_zero.mp hcnt0)
          (scan_found_mem_fst rest fuel ip hmem3)
      rw [List.count_cons_self, List.count_eq_zero.mpr hnot]
    · have hipmem : ip ∈ rest.map Prod.fst :=
        List.mem_map.mpr ⟨(ip, h), hmem2, rfl⟩
      have hne : ¬(ip = q.1) := by
        intro he
        rw [← he, List.count_cons_self] at huniq
        have : (rest.map Prod.fst).count ip = 0 := by omega
        exact (List.count_eq_zero.mp this) hipmem
      have hne2 : ¬(q.1 = ip) := fun he => hne he.symm
      have hrest1 : (rest.map Prod.fst).count ip = 1 := by
        rw [List.count_cons] at huniq
        simpa [hne2] using huniq
      cases hf : (scan_server q.2 q.1 fuel).found with
      | none => exact ih hmem2 hrest1
      | some b =>
        have hb : b = q.1 := by
          rcases scan_server_found q.2 q.1 fuel with h0 | h0
          · rw [h0] at hf; cases hf
          · rw [h0] at hf; injection hf with hbb; exact hbb.symm
        rw [List.count_cons]
        simp only [hb]
        simpa [hne2] using ih hmem2 hrest1

/-! ## The claims -/

/-- C1 (corrected, counterexample), two independent violations.  First:
with the session at /a, a scan_directory call on /a/b whose directory
change fails still runs the unconditional ".." of the finally block
(scanner.py line 181), leaving the session at the root rather than back at
/a.  Second: even with every directory change succeeding, a call on /x
under the calling convention (session at the root) meets a listed
directory named a/b, descends two levels through the PurePosixPath join
while its finally block pops one, and ends at /x instead of the root: the
current path after the call differs from the one before it. -/
theorem C1_counterexample :
    ((scan_directory fsDenyAll 1 ["a", "b"] ⟨["a"], [], []⟩).cwd = [] ∧
      (["a"] : List String) ≠ []) ∧
    ((scan_directory fsSlashName 3 ["x"] ⟨[], [], []⟩).cwd = ["x"] ∧
      (["x"] : List String) ≠ []) := by
  refine ⟨⟨rfl, by decide⟩, ?_, by decide⟩
  decide

/-- C1 (amended): when every directory change performed during the call
succeeds (listings may still raise), every listed directory entry carries
a plain single-segment name (nonempty, no slash, so the PurePosixPath join
descends exactly one level), and the call obeys the calling convention of
scan_directory (the current path is the parent of the target path, as at
every call site), the current remote path after the call equals the one
immediately before it, on every exit path. -/
theorem C1_stack_balance_amended (fs : FakeFS)
    (hacc : ∀ p, fs.accessible p = true) (hnames : plainDirNames fs)
    (fuel : Nat) (path : List String)
    (s : ScanState) (hcall : s.cwd = path.dropLast) :
    (scan_directory fs fuel path s).cwd = s.cwd := by
  rw [hcall]
  exact scan_directory_cwd_balanced fs hacc hnames fuel path s hcall

/-- C1 witness: a concrete balanced run. -/
theorem C1_stack_balance_witness :
    (scan_directory fsAllowAll 2 ["a"] ⟨[], [], []⟩).cwd = [] :=
  C1_stack_balance_amended fsAllowAll (fun _ => rfl)
    (fun p lines hl e he _ => by
      obtain rfl : lines = [] :=
        (Option.some.inj (hl : (some [] : Option (List String)) = some lines)).symm
      cases he)
    2 ["a"] ⟨[], [], []⟩ rfl

/-- C2 (corrected, counterexample): a host that logs in and traverses but
whose QUIT exchange raises at disconnect gets two add_server writes, the
second changing the recorded status from success to failed. -/
theorem C2_counterexample :
    (scan_server hostQuitFail "192.0.2.1" 1).statuses =
      ["success", "failed"] ∧
    (scan_server hostQuitFail "192.0.2.1" 1).statuses.length ≠ 1 := by
  constructor
  · rfl
  · decide

/-- C2 (amended): for every host whose QUIT exchange at disconnect does not
raise, scan_server performs exactly one add_server write, so the status is
written once and never changed. -/
theorem C2_status_once_amended (h : FakeHost) (ip : String) (fuel : Nat)
    (hq : h.quitOk = true) :
    (scan_server h ip fuel).statuses.length = 1 := by
  cases hc : h.connects <;> cases hl2 : h.loginOk <;>
    simp [scan_server, hc, hl2, hq]

/-- C2 witness: a clean end-to-end host writes exactly one status. -/
theorem C2_status_once_witness :
    (scan_server okHost "192.0.2.4" 1).statuses.length = 1 :=
  C2_status_once_amended okHost "192.0.2.4" 1 rfl

/-- C6 (corrected, counterexample): a host whose anonymous login succeeds
but whose QUIT raises at disconnect is missing from the found-list (and by
C2 its final status is failed, not success); and a host listed twice whose
sessions succeed appears twice, so exactly-once also needs the host to be
listed once. -/
theorem C6_counterexample :
    hostQuitFail.loginOk = true ∧
    scan [("192.0.2.2", hostQuitFail)] 1 = [] ∧
    scan [("192.0.2.3", okHost), ("192.0.2.3", okHost)] 1 =
      ["192.0.2.3", "192.0.2.3"] :=
  ⟨rfl, rfl, rfl⟩

/-- C6 (amended): a host listed exactly once whose connection, anonymous
login and disconnect all succeed appears in the found-list exactly once
and its recorded status is exactly one "success". -/
theorem C6_success_found_amended (hosts : List (String × FakeHost))
    (ip : String) (h : FakeHost) (fuel : Nat) (hmem : (ip, h) ∈ hosts)
    (huniq : (hosts.map Prod.fst).count ip = 1)
    (hc : h.connects = true) (hl2 : h.loginOk = true)
    (hq : h.quitOk = true) :
    (scan hosts fuel).count ip = 1 ∧
    (scan_server h ip fuel).statuses = ["success"] := by
  refine ⟨?_, by simp [scan_server, hc, hl2, hq]⟩
  rw [scan_eq_filterMap]
  exact count_scan_eq_one ip h fuel hc hl2 hq hosts hmem huniq

/-- C6 witness: a single successful host. -/
theorem C6_success_found_witness :
    (scan [("192.0.2.5", okHost)] 1).count "192.0.2.5" = 1 ∧
    (scan_server okHost "192.0.2.5" 1).statuses = ["success"] :=
  C6_success_found_amended [("192.0.2.5", okHost)] "192.0.2.5" okHost 1
    (List.Mem.head _) (by decide) rfl rfl rfl

/-- C7 (confirmed): a host whose connection or anonymous login fails with
an ftplib all_errors failure (refused, reset, timed out, or a protocol,
reply or permission rejection) gets status "failed" and is not returned;
no such host is ever in the found-list; and scanning a concatenation of
host lists scans both parts, so scanning continues with the next host
(each list entry is passed to scan_server exactly once, so no retry
occurs). -/
theorem C7_failed_hosts :
    (∀ (h : FakeHost) (ip : String) (fuel : Nat), login_failure h →
      (scan_server h ip fuel).statuses = ["failed"] ∧
      (scan_server h ip fuel).found = none) ∧
    (∀ (hosts : List (String × FakeHost)) (ip : String) (fuel : Nat),
      (∀ h, (ip, h) ∈ hosts → login_failure h) → ip ∉ scan hosts fuel) ∧
    (∀ (l1 l2 : List (String × FakeHost)) (fuel : Nat),
      scan (l1 ++ l2) fuel = scan l1 fuel ++ scan l2 fuel) := by
  have hout : ∀ (h : FakeHost) (ip : String) (fuel : Nat), login_failure h →
      (scan_server h ip fuel).statuses = ["failed"] ∧
      (scan_server h ip fuel).found = none := by
    intro h ip fuel hf
    rcases hf with hf | ⟨hf1, hf2⟩
    · simp [scan_server, hf]
    · cases hc : h.connects <;> simp [scan_server, hc, hf1, hf2]
  refine ⟨hout, ?_, scan_append⟩
  intro hosts ip fuel hall hmem
  rcases mem_scan_imp hosts fuel ip hmem with ⟨p, hp, hfp⟩
  have hp1 : p.1 = ip := by
    rcases scan_server_found p.2 p.1 fuel with h0 | h0
    · rw [h0] at hfp; cases hfp
    · rw [h0] at hfp; injection hfp
  have hmemi : (ip, p.2) ∈ hosts := by
    rw [← hp1, Prod.mk.eta]
    exact hp
  have hres := hout p.2 p.1 fuel (hall p.2 hmemi)
  rw [hres.2] at hfp
  cases hfp

/-- C7 witness: a refused connection. -/
theorem C7_failed_hosts_witness :
    (scan_server hostRefused "192.0.2.6" 1).statuses = ["failed"] ∧
    (scan_server hostRefused "192.0.2.6" 1).found = none :=
  C7_failed_hosts.1 hostRefused "192.0.2.6" 1 (Or.inl rfl)

/-- C8 (confirmed): a host whose scan raises an unclassified exception gets
status "error" through the generic except clause of scan_server, the
exception does not escape (scan_server returns None), and the hosts before
and after it in the same worker list are scanned exactly as they would be
alone. -/
theorem C8_unexpected_isolated :
    (∀ (h : FakeHost) (ip : String) (fuel : Nat),
      h.connects = true → h.loginOk = false → h.loginUnexpected = true →
      (scan_server h ip fuel).statuses = ["error"] ∧
      (scan_server h ip fuel).found = none) ∧
    (∀ (l1 l2 : List (String × FakeHost)) (p : String × FakeHost)
        (fuel : Nat),
      scan (l1 ++ p :: l2) fuel =
        scan l1 fuel ++ scan [p] fuel ++ scan l2 fuel) := by
  constructor
  · intro h ip fuel hc hl2 hu
    simp [scan_server, hc, hl2, hu]
  · intro l1 l2 p fuel
    rw [show l1 ++ p :: l2 = l1 ++ ([p] ++ l2) from rfl, scan_append,
      scan_append, List.append_assoc]

/-- C8 witness: a reply decoder failure outside all_errors. -/
theorem C8_unexpected_witness :
    (scan_server hostUnexpected "192.0.2.7" 1).statuses = ["error"] ∧
    (scan_server hostUnexpected "192.0.2.7" 1).found = none :=
  C8_unexpected_isolated.1 hostUnexpected "192.0.2.7" 1 rfl rfl rfl

/-- C9 (corrected, counterexample): a host that logs in, meets one failed
directory change during traversal (only the root directory row is ever
recorded), and whose QUIT raises at disconnect ends with status "failed"
even though its login succeeded. -/
theorem C9_counterexample :
    hostC9.loginOk = true ∧
    (scan_server hostC9 "198.51.100.7" 2).scanned.dirs = [[]] ∧
    (scan_server hostC9 "198.51.100.7" 2).statuses =
      ["success", "failed"] := by
  refine ⟨rfl, by decide, rfl⟩

/-- C9 (amended): a directory whose change fails during traversal
contributes nothing to the recorded rows (no directory row, no file rows)
and only costs the branch (the whole call collapses to the finally pop);
and when login succeeded the status stays "success" provided the
disconnect raises no error. -/
theorem C9_branch_abandoned_amended :
    (∀ (fs : FakeFS) (fuel : Nat) (path : List String) (s : ScanState),
      fs.accessible path = false →
      scan_directory fs (fuel + 1) path s =
        ⟨s.cwd.dropLast, s.dirs, s.files⟩) ∧
    (∀ (h : FakeHost) (ip : String) (fuel : Nat),
      h.connects = true → h.loginOk = true → h.quitOk = true →
      (scan_server h ip fuel).statuses = ["success"]) := by
  constructor
  · intro fs fuel path s ha
    rw [scan_directory_succ_fail fs fuel path s ha]
    rfl
  · intro h ip fuel hc hl2 hq
    simp [scan_server, hc, hl2, hq]

/-- C9 witness: a failed change records nothing; a clean host stays
"success". -/
theorem C9_branch_abandoned_witness :
    scan_directory fsDenyAll 1 ["a"] ⟨[], [], []⟩ = ⟨[], [], []⟩ ∧
    (scan_server okHost "192.0.2.9" 1).statuses = ["success"] :=
  ⟨C9_branch_abandoned_amended.1 fsDenyAll 0 ["a"] ⟨[], [], []⟩ rfl,
   C9_branch_abandoned_amended.2 okHost "192.0.2.9" 1 rfl rfl rfl⟩

/-- C10 (corrected, counterexample): when the anonymous login is rejected
after the TCP connection opened, the enter hook of the context manager
raises, the exit hook never runs, and the session leaves the connection
open. -/
theorem C10_counterexample :
    hostLoginDenied.connects = true ∧
    (scan_server hostLoginDenied "192.0.2.10" 1).opened = true ∧
    (scan_server hostLoginDenied "192.0.2.10" 1).closed = false :=
  ⟨rfl, rfl, rfl⟩

/-- C10 (amended): the connection is opened exactly when the TCP connect
succeeds, and the session closes it exactly when connect, login and the
QUIT exchange all succeed; in every other case (login failure after the
socket opened, or a raising QUIT) the session does not close it. -/
theorem C10_close_amended (h : FakeHost) (ip : String) (fuel : Nat) :
    (scan_server h ip fuel).opened = h.connects ∧
    ((scan_server h ip fuel).closed = true ↔
      h.connects = true ∧ h.loginOk = true ∧ h.quitOk = true) := by
  cases hc : h.connects <;> cases hl2 : h.loginOk <;> cases hq : h.quitOk <;>
    simp [scan_server, hc, hl2, hq]
